import Mathlib

set_option maxRecDepth 8000

/-! Shallow embedding of the news-query subsystem of the daily-digest
repository (file `src/news.py`) and proofs about it: term quoting, boolean
OR/AND joins, watchlist-token expansion, query compilation from a topic
template, the retry/backoff controller around the external fetch, the
process-wide rate-limit spacing guard, and the section assembler.

Python strings are modelled as Lean `String`s; the handful of Python string
primitives the code uses (`str.strip`, `str.lower`, the `in` substring
operator) are reimplemented over `List Char` so that every definition is
executable by the kernel. Whitespace is the four common ASCII whitespace
characters recognised by `Char.isWhitespace`; case mapping is ASCII. -/

namespace DailyDigest

/-- Python `str.strip()`: drop leading and trailing whitespace. -/
def pyStrip (s : String) : String :=
  String.mk (((s.data.dropWhile Char.isWhitespace).reverse.dropWhile Char.isWhitespace).reverse)

/-- Python `str.lower()` (ASCII case mapping). -/
def pyLower (s : String) : String :=
  String.mk (s.data.map Char.toLower)

/-- Boolean test for a contiguous sublist, used to model Python's `in`
operator on strings. -/
def listInfix (sub : List Char) : List Char → Bool
  | [] => sub.isEmpty
  | c :: t => sub.isPrefixOf (c :: t) || listInfix sub t

/-- Python `sub in s` on strings. -/
def strContains (s sub : String) : Bool :=
  listInfix sub.data s.data

/-- Term Quoter, `_quote_term` in src/news.py: trim whitespace; empty input
gives the empty string; a term containing a colon, an ` AND ` or ` OR `
operator, a parenthesis or a double quote passes through unmodified;
otherwise a term containing whitespace is wrapped in double quotes and a
single word passes through bare. -/
def _quote_term (term : String) : String :=
  let t := pyStrip term
  if t = "" then ""
  else if strContains t ":" || strContains t " AND " || strContains t " OR "
      || strContains t "(" || strContains t ")" || strContains t "\"" then t
  else if t.data.any Char.isWhitespace then "\"" ++ t ++ "\""
  else t

/-- OR-join, `_join_or` in src/news.py: drop blank entries and strip the
rest, quote each survivor, return the single survivor bare and parenthesize
two or more with ` OR ` between them. -/
def _join_or (terms : List String) : String :=
  match ((terms.filter fun x => pyStrip x != "").map pyStrip).map _quote_term with
  | [] => ""
  | [p] => p
  | parts => "(" ++ String.intercalate " OR " parts ++ ")"

/-- AND-join, `_join_and` in src/news.py: drop blank entries and strip the
rest, return a single survivor bare, parenthesize two or more with ` AND `
between them. -/
def _join_and (parts : List String) : String :=
  match (parts.filter fun p => pyStrip p != "").map pyStrip with
  | [] => ""
  | [c] => c
  | clean => "(" ++ String.intercalate " AND " clean ++ ")"

/-- Conditions under which the Term Quoter treats its (trimmed) input as a
pre-structured fragment and returns it unmodified: it contains a colon, a
boolean operator, a parenthesis, or a double-quote character. -/
def PreStructured (t : String) : Prop :=
  ":".data <:+: t.data ∨ " AND ".data <:+: t.data ∨ " OR ".data <:+: t.data
    ∨ "(".data <:+: t.data ∨ ")".data <:+: t.data ∨ "\"".data <:+: t.data

instance (t : String) : Decidable (PreStructured t) := by
  unfold PreStructured; infer_instance

/-! ### Watchlist Expander

The regular expression in src/news.py is
`\x7b\x7bwatchlist:([a-zA-Z0-9_]+)(\|only:([^\x7d]+))?\x7d\x7d`.
`re.sub` scans the text left to right and replaces every non-overlapping
match. For this particular pattern a backtracking match at a given position
is equivalent to: the literal opener, a maximal nonempty run of
alphanumeric/underscore characters, then either the `|only:` group (with a
maximal nonempty run of non-brace characters) followed by the closer, or the
closer directly; giving back characters from a maximal run can never help,
because the character after a shortened run would still fail the following
literal. The matcher below implements exactly that. -/

/-- Python `[a-zA-Z0-9_]` (`Char.isAlphanum` is ASCII-only). -/
def isNameChar (c : Char) : Bool :=
  c.isAlphanum || c == '_'

/-- Drop an expected literal prefix, or fail. -/
def dropPref : List Char → List Char → Option (List Char)
  | [], cs => some cs
  | _ :: _, [] => none
  | p :: ps, c :: cs => if c = p then dropPref ps cs else none

/-- The literal opener `{{watchlist:` of a watchlist token. -/
def tokOpen : List Char := "\x7b\x7bwatchlist:".data

/-- The literal closer `}}` of a watchlist token. -/
def tokClose : List Char := "\x7d\x7d".data

/-- The literal `|only:` separator of a watchlist token's filter group. -/
def tokOnly : List Char := "|only:".data

/-- Match the watchlist-token regex at the head of `cs`. On success, return
the captured NAME, the `only` value as the code extracts it (group 3
stripped when group 2 matched, `""` otherwise), and the remaining text. -/
def matchTokenAt (cs : List Char) : Option (String × String × List Char) :=
  match dropPref tokOpen cs with
  | none => none
  | some r1 =>
    let nm := r1.takeWhile isNameChar
    let r2 := r1.dropWhile isNameChar
    if nm.isEmpty then none
    else
      let bare : Option (String × String × List Char) :=
        match dropPref tokClose r2 with
        | some r => some (String.mk nm, "", r)
        | none => none
      match dropPref tokOnly r2 with
      | none => bare
      | some r3 =>
        let ov := r3.takeWhile (fun c => c != '\x7d')
        let r4 := r3.dropWhile (fun c => c != '\x7d')
        if ov.isEmpty then bare
        else
          match dropPref tokClose r4 with
          | some r => some (String.mk nm, pyStrip (String.mk ov), r)
          | none => bare

/-- The configured watchlists: name to term list, as an association list
(Python dict keys are unique). -/
abbrev Watchlists := List (String × List String)

/-- The replacement text for one matched token, as computed by `repl` in
src/news.py: when an `only` value is present, keep only the terms whose
stripped, lowered form equals the lowered `only` value; then OR-join the
non-blank survivors. -/
def watchlistReplacement (terms : List String) (ov : String) : String :=
  let terms2 := if ov != "" then terms.filter (fun t => pyLower (pyStrip t) == pyLower ov)
                else terms
  _join_or (terms2.filter fun t => pyStrip t != "")

/-- Left-to-right single-pass scan of `re.sub`: at each position either a
token matches (replace it and continue after it, raising if its NAME is not
a configured watchlist) or one character is copied. The `Nat` argument is
fuel for termination only; `expandGoF_congr` shows any fuel of at least the
text's length computes the same result. -/
def expandGoF (w : Watchlists) : Nat → List Char → Except String (List Char)
  | _, [] => Except.ok []
  | 0, _ :: _ => Except.ok []
  | fuel + 1, c :: cs =>
    match matchTokenAt (c :: cs) with
    | some (nm, ov, rest) =>
      match w.lookup nm with
      | none => Except.error ("Missing watchlist '" ++ nm ++ "' in config.yaml")
      | some terms =>
        Except.map (fun tail => (watchlistReplacement terms ov).data ++ tail)
          (expandGoF w fuel rest)
    | none => Except.map (fun tail => c :: tail) (expandGoF w fuel cs)

/-- Scan over a character list with adequate fuel. -/
def expandL (w : Watchlists) (cs : List Char) : Except String (List Char) :=
  expandGoF w cs.length cs

/-- Watchlist Expander, `_expand_watchlist_tokens` in src/news.py: replace
every `{{watchlist:NAME}}` or `{{watchlist:NAME|only:EXACT}}` token in the
text, raising (modelled as `Except.error`) on a NAME that is not a
configured watchlist. -/
def _expand_watchlist_tokens (text : String) (w : Watchlists) : Except String String :=
  Except.map String.mk (expandL w text.data)

/-! ### Query Compiler -/

/-- A Topic Template: the `or` and `and` lists of a templated topic's
configuration (a key that is absent, or whose value is not a list, behaves
as the empty list in src/news.py). -/
structure Template where
  orTerms : List String
  andTerms : List String
deriving DecidableEq

/-- The or-block of `_build_query_from_template`: when the `or` list is a
non-empty list, its OR-join is added as one clause. -/
def or_block_clauses (orTerms : List String) : List String :=
  if orTerms.isEmpty then [] else [_join_or orTerms]

/-- The global-AND suffix of `_build_query_from_template`: when a non-empty
global suffix is configured, its stripped form is added as one clause. -/
def global_and_clauses (global_and : String) : List String :=
  if global_and == "" then [] else [pyStrip global_and]

/-- The exclusion block of `_build_query_from_template`: when exclusion
domains are configured and at least one is non-blank, one clause
`-(<OR-join of the domain:<d> tokens>)` is added. -/
def exclusion_clauses (exclude_domains : List String) : List String :=
  if exclude_domains.isEmpty then []
  else
    let ex := (exclude_domains.filter fun d => pyStrip d != "").map
      fun d => "domain:" ++ pyStrip d
    if ex.isEmpty then [] else ["-(" ++ _join_or ex ++ ")"]

/-- The loop over the template's `and` list in `_build_query_from_template`:
skip blank fragments, expand watchlist tokens in each survivor's stripped
form, and keep each expanded fragment as its own clause; an expansion error
propagates. -/
def expandAndList (w : Watchlists) : List String → Except String (List String)
  | [] => Except.ok []
  | item :: rest =>
    let frag := pyStrip item
    if frag == "" then expandAndList w rest
    else
      match _expand_watchlist_tokens frag w with
      | Except.error e => Except.error e
      | Except.ok fx => Except.map (fun tail => fx :: tail) (expandAndList w rest)

/-- Query Compiler, `_build_query_from_template` in src/news.py: the
AND-join of the or-block clause, the expanded `and` fragments, the
global-AND clause and the exclusion clause, gathered in that order (the
Python code appends them to `and_parts` in this order and AND-joins at the
end). -/
def _build_query_from_template (template : Template) (watchlists : Watchlists)
    (global_and : String) (exclude_domains : List String) : Except String String :=
  match expandAndList watchlists template.andTerms with
  | Except.error e => Except.error e
  | Except.ok frags =>
    Except.ok (_join_and (or_block_clauses template.orTerms ++ frags
      ++ global_and_clauses global_and ++ exclusion_clauses exclude_domains))

/-- The clause list as claim C2 words it: (1) the OR-join of the template's
`or` terms if that list is non-empty, (2) each non-blank fragment of the
`and` list after watchlist expansion, each its own discrete clause, (3) the
global-AND suffix if configured, (4) the exclusion clause if configured. -/
def specGatheredClauses (template : Template) (w : Watchlists) (global_and : String)
    (exclude_domains : List String) : Except String (List String) :=
  Except.map (fun andClauses =>
      (if template.orTerms = [] then [] else [_join_or template.orTerms])
        ++ andClauses
        ++ (if global_and = "" then [] else [pyStrip global_and])
        ++ exclusion_clauses exclude_domains)
    (((template.andTerms.map pyStrip).filter fun f => f ≠ "").mapM
      fun frag => _expand_watchlist_tokens frag w)

/-! ### Retry/Backoff Controller

`_gdelt_search` in src/news.py wraps one attempt body (rate-limit
enforcement, the HTTP GET, the retryable-status check, `raise_for_status`,
JSON parsing and the projection of at most `max_items` articles) in a loop
over the fixed backoff list. The attempt body is abstracted here as an
oracle `attempt : Nat → Except String (List Article)`: `Except.ok` is the
projected article list of a successful attempt, `Except.error` the message
of whatever exception the body raised (transient or fatal — the loop's
`except Exception` does not distinguish them). -/

/-- One article's projection {title, domain, url, seendate}. -/
structure Article where
  title : String
  domain : String
  url : String
  seendate : String
deriving DecidableEq

/-- The fixed backoff sequence of `_gdelt_search` (seconds; index 0 is the
first attempt, with no pre-wait). -/
def backoffs : List Nat := [0, 5, 5, 10, 15]

/-- Outcome of a retry-controller run: the returned items or re-raised
error, the number of attempts made, and the list of pre-attempt waits, in
order (the code sleeps only when the entry is non-zero, so an entry `0`
records that no wait happened). -/
structure RetryRun where
  result : Except String (List Article)
  attempts : Nat
  waits : List Nat

/-- The retry loop of `_gdelt_search`: walk the remaining backoff entries;
sleep the entry, run the attempt; return its items on success, otherwise
remember the error and continue; when the entries are exhausted re-raise the
last observed error (`GDELT failed` stands for the unreachable fresh
RuntimeError used when no attempt ever ran). -/
def retryGo (attempt : Nat → Except String (List Article)) :
    List Nat → Nat → Option String → RetryRun
  | [], n, lastErr => ⟨Except.error (lastErr.getD "GDELT failed"), n, []⟩
  | w :: ws, n, _ =>
    match attempt n with
    | Except.ok items => ⟨Except.ok items, n + 1, [w]⟩
    | Except.error e =>
      let r := retryGo attempt ws (n + 1) (some e)
      ⟨r.result, r.attempts, w :: r.waits⟩

/-- Retry/Backoff Controller, `_gdelt_search` in src/news.py, as a function
of the attempt oracle. -/
def _gdelt_search (attempt : Nat → Except String (List Article)) : RetryRun :=
  retryGo attempt backoffs 0 none

/-! ### Rate-Limited Fetcher: the spacing guard

An idealized clock: `now` is the current wall-clock time, `last` the
module-global `_LAST_GDELT_CALL_TS`. Time advances only while sleeping or
(arbitrarily) between calls; the model's other steps are instantaneous, so
the HTTP request of an attempt is issued at the time the guard returns.
Rationals stand in for Python floats — the quantities involved (e.g. the
5.1-second minimum gap) are exact decimals. -/

structure RateState where
  now : ℚ
  last : ℚ
deriving DecidableEq

/-- The spacing guard, `_enforce_gdelt_spacing` in src/news.py: compute
`sleep_for = last + gap - now`; sleep that long when it is positive; then
record the (new) current time as the last-call timestamp. -/
def _enforce_gdelt_spacing (gap : ℚ) (s : RateState) : RateState :=
  let sleep_for := s.last + gap - s.now
  let s2 := if 0 < sleep_for then RateState.mk (s.now + sleep_for) s.last else s
  RateState.mk s2.now s2.now

/-- The minimum gap passed by `_gdelt_search`: 5.1 seconds. -/
def gdeltMinGap : ℚ := 51 / 10

/-- The outbound-request times of a run of consecutive fetch attempts:
`d` is whatever time elapses between the previous guard return and the next
call of the guard (backoff sleeps, HTTP round-trips, parsing, the
inter-topic throttle, ...). Each request is issued at the time its guard
call returns. -/
def runFetchTimes (gap : ℚ) (s : RateState) : List ℚ → List ℚ
  | [] => []
  | d :: ds =>
    let s1 := _enforce_gdelt_spacing gap (RateState.mk (s.now + d) s.last)
    s1.now :: runFetchTimes gap s1 ds

/-! ### Section Assembler

`build_news_sections` in src/news.py. A Topic Definition carries the
per-topic configuration after the loosely-typed reads at the top of the loop
body (`name`, `type` with default `gdelt_template`, the literal `query` of a
plain topic, the template, and the optional per-topic count/lookback
overrides). The fetch — `_gdelt_search` with its retries — is abstracted as
an oracle from (query, lookback, count) to items or a raised error's
message. The inter-topic throttle sleep only spends time and does not touch
the output, so it does not appear in the output model. -/

structure NewsTopic where
  name : String
  stype : String
  query : String
  template : Template
  countOpt : Option Nat
  lookbackOpt : Option Nat
deriving DecidableEq

/-- The news configuration consumed by `build_news_sections`: shared
defaults (global AND suffix, excluded domains, base lookback with its
default 24, default count with its default 10), the watchlists and the
ordered topic list. -/
structure NewsConfig where
  global_and : String
  exclude_domains : List String
  lookback_hours : Option Nat
  default_count : Option Nat
  watchlists : Watchlists
  sections : List NewsTopic

/-- A fetch oracle: query, lookback hours, max items ↦ the items returned by
`_gdelt_search`, or the message of the exception it re-raised. -/
abbrev Fetch := String → Nat → Nat → Except String (List Article)

/-- The payload of one produced Section (`data` in src/news.py); a success
payload has no `error` key, modelled as `none`. -/
structure SectionData where
  items : List Article
  count : Nat
  lookback_hours : Nat
  query : String
  error : Option String
deriving DecidableEq

/-- One produced Section: `{id, title, type, data}`. -/
structure Section where
  id : String
  title : String
  type : String
  data : SectionData
deriving DecidableEq

/-- The section id `news_<name.lower() with ' ' and '/' replaced by '_'>`. -/
def sectionId (name : String) : String :=
  "news_" ++ String.mk ((pyLower name).data.map fun c => if c == ' ' || c == '/' then '_' else c)

/-- The error Section emitted for a failed topic: empty items, the topic's
count/lookback, an empty query string and the exception's message. -/
def errorSection (name : String) (count lookback : Nat) (msg : String) : Section :=
  ⟨sectionId name, "News — " ++ name, "news",
    ⟨[], count, lookback, "", some msg⟩⟩

/-- The success Section for a topic: the fetched items and the topic's
count/lookback/query metadata. -/
def successSection (name : String) (count lookback : Nat) (q : String)
    (items : List Article) : Section :=
  ⟨sectionId name, "News — " ++ name, "news",
    ⟨items, count, lookback, q, none⟩⟩

/-- Query resolution for one topic: a `gdelt` (plain) topic uses its literal
query string; every other type goes through the Query Compiler. -/
def resolveTopicQuery (wl : Watchlists) (ga : String) (excl : List String)
    (t : NewsTopic) : Except String String :=
  if t.stype == "gdelt" then Except.ok t.query
  else _build_query_from_template t.template wl ga excl

/-- The body of the per-topic loop of `build_news_sections`: resolve the
query (a raised error becomes an error Section); raise on a blank resolved
query before any fetch; otherwise fetch and emit the success or error
Section. The second component records the fetch calls performed
(query, lookback, count) — empty exactly when no fetch was attempted. -/
def processTopic (wl : Watchlists) (ga : String) (excl : List String) (fetch : Fetch)
    (defCount baseLookback : Nat) (t : NewsTopic) :
    Section × List (String × Nat × Nat) :=
  let count := t.countOpt.getD defCount
  let lookback := t.lookbackOpt.getD baseLookback
  match resolveTopicQuery wl ga excl t with
  | Except.error e => (errorSection t.name count lookback e, [])
  | Except.ok q =>
    if pyStrip q == "" then
      (errorSection t.name count lookback
        ("Empty query generated for section '" ++ t.name ++ "'"), [])
    else
      match fetch q lookback count with
      | Except.ok items => (successSection t.name count lookback q items, [(q, lookback, count)])
      | Except.error e => (errorSection t.name count lookback e, [(q, lookback, count)])

/-- The loop of `build_news_sections`: process the topics in configuration
order, appending one Section per topic. -/
def buildGo (wl : Watchlists) (ga : String) (excl : List String) (fetch : Fetch)
    (defCount baseLookback : Nat) : List NewsTopic → List Section
  | [] => []
  | t :: ts => (processTopic wl ga excl fetch defCount baseLookback t).1
      :: buildGo wl ga excl fetch defCount baseLookback ts

/-- Section Assembler, `build_news_sections` in src/news.py (the returned
section list; sleeps do not affect it). -/
def build_news_sections (cfg : NewsConfig) (fetch : Fetch) : List Section :=
  buildGo cfg.watchlists (pyStrip cfg.global_and) cfg.exclude_domains fetch
    (cfg.default_count.getD 10) (cfg.lookback_hours.getD 24) cfg.sections

/-! ### Theorems -/

theorem listInfix_iff (sub l : List Char) : listInfix sub l = true ↔ sub <:+: l := by
  induction l with
  | nil =>
    simp [listInfix, List.isEmpty_iff]
  | cons c t ih =>
    simp [listInfix, List.infix_cons_iff, ih, List.isPrefixOf_iff_prefix]

theorem strContains_iff (s sub : String) : strContains s sub = true ↔ sub.data <:+: s.data :=
  listInfix_iff sub.data s.data

theorem quote_term_eq_of_preStructured {term : String} (h : PreStructured (pyStrip term))
    (hne : pyStrip term ≠ "") : _quote_term term = pyStrip term := by
  have hb : (strContains (pyStrip term) ":" || strContains (pyStrip term) " AND "
      || strContains (pyStrip term) " OR " || strContains (pyStrip term) "("
      || strContains (pyStrip term) ")" || strContains (pyStrip term) "\"") = true := by
    simp only [Bool.or_eq_true, strContains_iff]
    rcases h with h | h | h | h | h | h <;> tauto
  simp only [_quote_term, if_neg hne, hb, if_true]

theorem quote_term_eq_of_not_preStructured {term : String} (h : ¬ PreStructured (pyStrip term))
    (hne : pyStrip term ≠ "") :
    _quote_term term =
      (if (pyStrip term).data.any Char.isWhitespace then "\"" ++ pyStrip term ++ "\""
       else pyStrip term) := by
  have hb : (strContains (pyStrip term) ":" || strContains (pyStrip term) " AND "
      || strContains (pyStrip term) " OR " || strContains (pyStrip term) "("
      || strContains (pyStrip term) ")" || strContains (pyStrip term) "\"") = false := by
    rw [Bool.eq_false_iff]
    intro hc
    apply h
    simp only [Bool.or_eq_true, strContains_iff] at hc
    unfold PreStructured
    tauto
  simp only [_quote_term, if_neg hne, hb, Bool.false_eq_true, if_false]

/-- C6 counterexample: the term `say "hi" now` is not quote-delimited (it does
not begin with a double quote), contains whitespace, and contains none of the
colon, boolean-operator or parenthesis markers, so the claim as stated demands
that it be wrapped in double quotes; the code returns it unmodified because it
merely contains a double-quote character somewhere. -/
theorem quote_term_claim_counterexample :
    _quote_term "say \"hi\" now" = "say \"hi\" now"
  ∧ pyStrip "say \"hi\" now" = "say \"hi\" now"
  ∧ ("say \"hi\" now".data.any Char.isWhitespace) = true
  ∧ ¬ (":".data <:+: "say \"hi\" now".data)
  ∧ ¬ (" AND ".data <:+: "say \"hi\" now".data)
  ∧ ¬ (" OR ".data <:+: "say \"hi\" now".data)
  ∧ ¬ ("(".data <:+: "say \"hi\" now".data)
  ∧ ¬ (")".data <:+: "say \"hi\" now".data)
  ∧ "say \"hi\" now".data.head? ≠ some '"'
  ∧ _quote_term "say \"hi\" now" ≠ "\"" ++ "say \"hi\" now" ++ "\"" := by
  refine ⟨by decide, by decide, by decide, ?_, ?_, ?_, ?_, ?_, by decide, by decide⟩
  all_goals decide

/-- C6 (amended): the Term Quoter trims whitespace and returns the empty
string for blank input; it returns the trimmed term unmodified when it
contains a colon, an ` AND ` or ` OR ` operator, a parenthesis, or a
double-quote character; otherwise it wraps the term in double quotes exactly
when the term contains whitespace and returns single-word terms unquoted. It
is a total function, so it never raises. -/
theorem quote_term_spec (term : String) :
    (pyStrip term = "" → _quote_term term = "")
  ∧ (pyStrip term ≠ "" → PreStructured (pyStrip term) → _quote_term term = pyStrip term)
  ∧ (pyStrip term ≠ "" → ¬ PreStructured (pyStrip term) →
      ((∃ c ∈ (pyStrip term).data, c.isWhitespace) →
          _quote_term term = "\"" ++ pyStrip term ++ "\"")
    ∧ ((∀ c ∈ (pyStrip term).data, ¬ c.isWhitespace) → _quote_term term = pyStrip term)) := by
  refine ⟨fun h => by simp [_quote_term, h], fun hne h => quote_term_eq_of_preStructured h hne,
    fun hne hnp => ⟨fun hex => ?_, fun hall => ?_⟩⟩
  · rw [quote_term_eq_of_not_preStructured hnp hne, if_pos]
    rw [List.any_eq_true]
    obtain ⟨c, hc, hw⟩ := hex
    exact ⟨c, hc, hw⟩
  · rw [quote_term_eq_of_not_preStructured hnp hne, if_neg]
    rw [List.any_eq_true]
    rintro ⟨c, hc, hw⟩
    exact hall c hc hw

theorem quote_term_spec_witness :
    pyStrip "hello world" ≠ "" ∧ ¬ PreStructured (pyStrip "hello world")
  ∧ _quote_term "hello world" = "\"hello world\"" :=
  ⟨by decide, by decide,
    ((quote_term_spec "hello world").2.2 (by decide) (by decide)).1 (by decide)⟩

theorem dropPref_append (p r : List Char) : dropPref p (p ++ r) = some r := by
  induction p with
  | nil => simp [dropPref]
  | cons c cs ih => simp [dropPref, ih]

theorem dropPref_length {p cs r : List Char} (h : dropPref p cs = some r) :
    r.length + p.length = cs.length := by
  induction p generalizing cs with
  | nil =>
    simp only [dropPref, Option.some.injEq] at h
    simp [h]
  | cons c ps ih =>
    match cs with
    | [] => simp [dropPref] at h
    | d :: ds =>
      simp only [dropPref] at h
      split at h
      · have := ih h
        simp only [List.length_cons]
        omega
      · exact absurd h (by simp)

theorem length_dropWhile_le (P : Char → Bool) (l : List Char) :
    (l.dropWhile P).length ≤ l.length := by
  induction l with
  | nil => simp
  | cons c cs ih =>
    by_cases h : P c = true
    all_goals simp [List.dropWhile, h]
    all_goals omega

theorem tokOpen_length : tokOpen.length = 12 := rfl

theorem tokClose_length : tokClose.length = 2 := rfl

theorem tokOnly_length : tokOnly.length = 6 := rfl

theorem matchTokenAt_length {cs : List Char} {nm ov : String} {rest : List Char}
    (h : matchTokenAt cs = some (nm, ov, rest)) : rest.length + 14 ≤ cs.length := by
  unfold matchTokenAt at h
  split at h
  · exact absurd h (by simp)
  · rename_i r1 h1
    have hr1 : r1.length + 12 = cs.length := by
      have := dropPref_length h1
      rwa [tokOpen_length] at this
    simp only at h
    split at h
    · exact absurd h (by simp)
    · rename_i hnm
      have hr2 : (r1.dropWhile isNameChar).length + 1 ≤ r1.length := by
        have hlt := length_dropWhile_le isNameChar r1
        rcases r1 with _ | ⟨c, r1'⟩
        · simp [List.takeWhile] at hnm
        · by_cases hc : isNameChar c = true
          · simp only [List.dropWhile, hc]
            have := length_dropWhile_le isNameChar r1'
            simp only [List.length_cons]
            omega
          · simp [List.takeWhile, hc] at hnm
      have hbare : ∀ r' : List Char,
          (match dropPref tokClose (r1.dropWhile isNameChar) with
            | some r => some (String.mk (r1.takeWhile isNameChar), "", r)
            | none => none) = some (nm, ov, r') → r'.length + 14 ≤ cs.length := by
        intro r' hb
        split at hb
        · rename_i hc
          have := dropPref_length hc
          rw [tokClose_length] at this
          simp only [Option.some.injEq, Prod.mk.injEq] at hb
          obtain ⟨-, -, rfl⟩ := hb
          omega
        · exact absurd hb (by simp)
      split at h
      · exact hbare rest h
      · rename_i r3 h3
        have hr3 := dropPref_length h3
        rw [tokOnly_length] at hr3
        split at h
        · exact hbare rest h
        · rename_i hov
          split at h
          · rename_i r4' h4
            have hr4 := dropPref_length h4
            rw [tokClose_length] at hr4
            have hd : (r3.dropWhile (fun c => c != '\x7d')).length + 1 ≤ r3.length := by
              rcases r3 with _ | ⟨c, r3'⟩
              · simp [List.takeWhile] at hov
              · by_cases hc : (c != '\x7d') = true
                · simp only [List.dropWhile, hc]
                  have := length_dropWhile_le (fun c => c != '\x7d') r3'
                  simp only [List.length_cons]
                  omega
                · simp [List.takeWhile, hc] at hov
            simp only [Option.some.injEq, Prod.mk.injEq] at h
            obtain ⟨-, -, rfl⟩ := h
            omega
          · exact hbare rest h

theorem expandGoF_congr (w : Watchlists) :
    ∀ {f1 f2 : Nat} {cs : List Char}, cs.length ≤ f1 → cs.length ≤ f2 →
      expandGoF w f1 cs = expandGoF w f2 cs := by
  intro f1
  induction f1 with
  | zero =>
    intro f2 cs h1 _
    match cs with
    | [] => cases f2 <;> rfl
    | c :: cs' => simp at h1
  | succ f ih =>
    intro f2 cs h1 h2
    match cs with
    | [] => cases f2 <;> rfl
    | c :: cs' =>
      match f2 with
      | 0 => simp at h2
      | f2' + 1 =>
        simp only [expandGoF]
        split
        · rename_i nm ov rest hm
          have hr := matchTokenAt_length hm
          simp only [List.length_cons] at h1 h2 hr
          split
          · rfl
          · exact congrArg _ (@ih f2' rest (by omega) (by omega))
        · simp only [List.length_cons] at h1 h2
          exact congrArg _ (@ih f2' cs' (by omega) (by omega))

theorem expandL_nil (w : Watchlists) : expandL w [] = Except.ok [] := rfl

theorem expandL_nomatch {c : Char} {cs : List Char} (w : Watchlists)
    (h : matchTokenAt (c :: cs) = none) :
    expandL w (c :: cs) = Except.map (fun tail => c :: tail) (expandL w cs) := by
  simp only [expandL, List.length_cons, expandGoF, h]

theorem matchTokenAt_nil : matchTokenAt [] = none := rfl

theorem expandL_missing {cs : List Char} {nm ov : String} {rest : List Char}
    (w : Watchlists) (h : matchTokenAt cs = some (nm, ov, rest))
    (hw : w.lookup nm = none) :
    expandL w cs = Except.error ("Missing watchlist '" ++ nm ++ "' in config.yaml") := by
  match cs with
  | [] => rw [matchTokenAt_nil] at h; exact absurd h (by simp)
  | c :: cs' => simp only [expandL, List.length_cons, expandGoF, h, hw]

theorem expandL_found {cs : List Char} {nm ov : String} {rest : List Char}
    {terms : List String} (w : Watchlists) (h : matchTokenAt cs = some (nm, ov, rest))
    (hw : w.lookup nm = some terms) :
    expandL w cs =
      Except.map (fun tail => (watchlistReplacement terms ov).data ++ tail) (expandL w rest) := by
  match cs with
  | [] => rw [matchTokenAt_nil] at h; exact absurd h (by simp)
  | c :: cs' =>
    have hr := matchTokenAt_length h
    simp only [List.length_cons] at hr
    simp only [expandL, List.length_cons, expandGoF, h, hw]
    rw [expandGoF_congr w (by omega) (le_refl rest.length)]

theorem matchTokenAt_none_of_head {c : Char} (cs : List Char) (h : c ≠ '\x7b') :
    matchTokenAt (c :: cs) = none := by
  have : dropPref tokOpen (c :: cs) = none := by
    simp only [tokOpen]
    simp [dropPref, h]
  simp only [matchTokenAt, this]

/-- Characters before the first `{` are copied unchanged by the scan. -/
theorem expandL_clean_prefix (w : Watchlists) (pre : List Char) (cs : List Char)
    (hpre : ∀ c ∈ pre, c ≠ '\x7b') :
    expandL w (pre ++ cs) = Except.map (fun tail => pre ++ tail) (expandL w cs) := by
  induction pre with
  | nil =>
    simp only [List.nil_append]
    cases expandL w cs <;> rfl
  | cons c p ih =>
    have hc : c ≠ '\x7b' := hpre c (by simp)
    have hp : ∀ c ∈ p, c ≠ '\x7b' := fun x hx => hpre x (by simp [hx])
    rw [List.cons_append, expandL_nomatch w (matchTokenAt_none_of_head _ hc), ih hp]
    cases expandL w cs <;> rfl

theorem takeWhile_append_all (P : Char → Bool) (l : List Char) (d : Char) (r : List Char)
    (hl : ∀ c ∈ l, P c = true) (hd : P d = false) :
    (l ++ d :: r).takeWhile P = l ∧ (l ++ d :: r).dropWhile P = d :: r := by
  induction l with
  | nil => simp [List.takeWhile, List.dropWhile, hd]
  | cons c t ih =>
    have hc : P c = true := hl c (by simp)
    have ht := ih fun x hx => hl x (by simp [hx])
    constructor
    · rw [List.cons_append, List.takeWhile_cons_of_pos hc, ht.1]
    · rw [List.cons_append, List.dropWhile_cons_of_pos hc, ht.2]

theorem tokClose_eq : tokClose = ['\x7d', '\x7d'] := rfl

theorem isEmpty_false_of_ne_nil {l : List Char} (h : l ≠ []) : l.isEmpty = false := by
  cases l with
  | nil => exact absurd rfl h
  | cons a t => rfl

/-- A bare token `{{watchlist:NAME}}` matches at the start of the text, with
no `only` value, leaving the suffix. -/
theorem matchTokenAt_bare (name : String) (suf : List Char)
    (hne : name.data ≠ []) (hall : ∀ c ∈ name.data, isNameChar c = true) :
    matchTokenAt (tokOpen ++ name.data ++ tokClose ++ suf) = some (name, "", suf) := by
  have htw := takeWhile_append_all isNameChar name.data '\x7d' ('\x7d' :: suf) hall (by decide)
  have hshape : tokOpen ++ name.data ++ tokClose ++ suf
      = tokOpen ++ (name.data ++ '\x7d' :: '\x7d' :: suf) := by
    simp [tokClose_eq, List.append_assoc]
  rw [hshape]
  unfold matchTokenAt
  rw [dropPref_append]
  simp only [htw.1, htw.2, isEmpty_false_of_ne_nil hne, Bool.false_eq_true, if_false]
  rfl

theorem tokOnly_eq : tokOnly = ['|', 'o', 'n', 'l', 'y', ':'] := rfl

/-- A filtered token `{{watchlist:NAME|only:EX}}` (EX nonempty, without any
closing brace) matches at the start of the text; the captured `only` value is
EX stripped. -/
theorem matchTokenAt_only (name ex : String) (suf : List Char)
    (hne : name.data ≠ []) (hall : ∀ c ∈ name.data, isNameChar c = true)
    (hexne : ex.data ≠ []) (hex : ∀ c ∈ ex.data, c ≠ '\x7d') :
    matchTokenAt (tokOpen ++ name.data ++ tokOnly ++ ex.data ++ tokClose ++ suf)
      = some (name, pyStrip ex, suf) := by
  have htw := takeWhile_append_all isNameChar name.data '|'
    ('o' :: 'n' :: 'l' :: 'y' :: ':' :: (ex.data ++ '\x7d' :: '\x7d' :: suf)) hall (by decide)
  have hov := takeWhile_append_all (fun c => c != '\x7d') ex.data '\x7d' ('\x7d' :: suf)
    (fun c hc => by simp [hex c hc]) (by decide)
  have hshape : tokOpen ++ name.data ++ tokOnly ++ ex.data ++ tokClose ++ suf
      = tokOpen ++ (name.data ++ '|' :: 'o' :: 'n' :: 'l' :: 'y' :: ':'
          :: (ex.data ++ '\x7d' :: '\x7d' :: suf)) := by
    simp [tokOnly_eq, tokClose_eq, List.append_assoc]
  rw [hshape]
  unfold matchTokenAt
  rw [dropPref_append]
  simp only [htw.1, htw.2, isEmpty_false_of_ne_nil hne, Bool.false_eq_true, if_false]
  have hdrop : dropPref tokOnly ('|' :: 'o' :: 'n' :: 'l' :: 'y' :: ':'
      :: (ex.data ++ '\x7d' :: '\x7d' :: suf)) = some (ex.data ++ '\x7d' :: '\x7d' :: suf) := by
    rw [show ('|' :: 'o' :: 'n' :: 'l' :: 'y' :: ':' :: (ex.data ++ '\x7d' :: '\x7d' :: suf))
        = tokOnly ++ (ex.data ++ '\x7d' :: '\x7d' :: suf) from rfl]
    exact dropPref_append _ _
  rw [hdrop]
  simp only [hov.1, hov.2, isEmpty_false_of_ne_nil hexne, Bool.false_eq_true, if_false]
  rfl

/-- C7: expanding a text that contains a watchlist token whose NAME (looked
up case-sensitively) is not a configured watchlist raises the
missing-watchlist configuration error — a hard failure for the enclosing
topic, not a silent skip or an empty substitution. The token is the first
match candidate in the text (no `\x7b` occurs before it); both the bare form
`\x7b\x7bwatchlist:NAME\x7d\x7d` and the filtered form
`\x7b\x7bwatchlist:NAME|only:EXACT\x7d\x7d` fail the same way. -/
theorem watchlist_missing_raises (pre name suf : String) (w : Watchlists)
    (hpre : ∀ c ∈ pre.data, c ≠ '\x7b')
    (hname : name.data ≠ [] ∧ ∀ c ∈ name.data, isNameChar c = true)
    (hmiss : w.lookup name = none) :
    _expand_watchlist_tokens (pre ++ "\x7b\x7bwatchlist:" ++ name ++ "\x7d\x7d" ++ suf) w
      = Except.error ("Missing watchlist '" ++ name ++ "' in config.yaml")
  ∧ ∀ ex : String, ex.data ≠ [] → (∀ c ∈ ex.data, c ≠ '\x7d') →
      _expand_watchlist_tokens
          (pre ++ "\x7b\x7bwatchlist:" ++ name ++ "|only:" ++ ex ++ "\x7d\x7d" ++ suf) w
        = Except.error ("Missing watchlist '" ++ name ++ "' in config.yaml") := by
  constructor
  · have hdata : (pre ++ "\x7b\x7bwatchlist:" ++ name ++ "\x7d\x7d" ++ suf).data
        = pre.data ++ (tokOpen ++ name.data ++ tokClose ++ suf.data) := by
      simp only [String.data_append, tokOpen, tokClose, List.append_assoc]
    unfold _expand_watchlist_tokens
    rw [hdata, expandL_clean_prefix w pre.data _ hpre,
      expandL_missing w (matchTokenAt_bare name suf.data hname.1 hname.2) hmiss]
    rfl
  · intro ex hexne hex
    have hdata : (pre ++ "\x7b\x7bwatchlist:" ++ name ++ "|only:" ++ ex ++ "\x7d\x7d" ++ suf).data
        = pre.data ++ (tokOpen ++ name.data ++ tokOnly ++ ex.data ++ tokClose ++ suf.data) := by
      simp only [String.data_append, tokOpen, tokOnly, tokClose, List.append_assoc]
    unfold _expand_watchlist_tokens
    rw [hdata, expandL_clean_prefix w pre.data _ hpre,
      expandL_missing w (matchTokenAt_only name ex suf.data hname.1 hname.2 hexne hex) hmiss]
    rfl

theorem watchlist_missing_raises_witness :
    (∀ c ∈ "x: ".data, c ≠ '\x7b')
  ∧ ("foo".data ≠ [] ∧ ∀ c ∈ "foo".data, isNameChar c = true)
  ∧ (([] : Watchlists).lookup "foo" = none)
  ∧ _expand_watchlist_tokens ("x: " ++ "\x7b\x7bwatchlist:" ++ "foo" ++ "\x7d\x7d" ++ "") []
      = Except.error ("Missing watchlist 'foo' in config.yaml") :=
  ⟨by decide, ⟨by decide, by decide⟩, rfl,
    (watchlist_missing_raises "x: " "foo" "" [] (by decide) ⟨by decide, by decide⟩ rfl).1⟩

theorem join_or_filter_blank (l : List String) :
    _join_or (l.filter fun x => pyStrip x != "") = _join_or l := by
  have h : (l.filter fun x => pyStrip x != "").filter (fun x => pyStrip x != "")
      = l.filter fun x => pyStrip x != "" := by
    rw [List.filter_filter]
    simp [Bool.and_self]
  unfold _join_or
  rw [h]

theorem join_and_filter_blank (l : List String) :
    _join_and (l.filter fun x => pyStrip x != "") = _join_and l := by
  have h : (l.filter fun x => pyStrip x != "").filter (fun x => pyStrip x != "")
      = l.filter fun x => pyStrip x != "" := by
    rw [List.filter_filter]
    simp [Bool.and_self]
  unfold _join_and
  rw [h]

/-- C9: OR-join and AND-join are invariant under removing blank entries
first: for every list of strings, joining the sublist of entries whose
stripped form is non-empty yields exactly the same string as joining the
whole list. -/
theorem join_blank_invariance (l : List String) :
    _join_or (l.filter fun x => pyStrip x != "") = _join_or l
  ∧ _join_and (l.filter fun x => pyStrip x != "") = _join_and l :=
  ⟨join_or_filter_blank l, join_and_filter_blank l⟩

theorem string_mk_append (a b : String) (t : List Char) :
    String.mk (a.data ++ (b.data ++ t)) = a ++ b ++ String.mk t := by
  cases a with
  | mk d1 =>
    cases b with
    | mk d2 =>
      show String.mk (d1 ++ (d2 ++ t)) = String.mk ((d1 ++ d2) ++ t)
      exact congrArg String.mk (List.append_assoc d1 d2 t).symm

/-- C8 counterexample: with watchlist `w = [" Acme "]` (a term padded with
whitespace) and the token `\x7b\x7bwatchlist:w|only:acme\x7d\x7d`, the code
substitutes `Acme` — the padded term matches because both sides of the
comparison are stripped before lowering — whereas the claim's
case-insensitive-equality filter keeps no term at all and so predicts the
empty substitution. -/
theorem watchlist_only_claim_counterexample :
    _expand_watchlist_tokens "\x7b\x7bwatchlist:w|only:acme\x7d\x7d" [("w", [" Acme "])]
      = Except.ok "Acme"
  ∧ [" Acme "].filter (fun t => pyLower t == pyLower "acme") = []
  ∧ _join_or ([" Acme "].filter (fun t => pyLower t == pyLower "acme")) = ""
  ∧ ("Acme" : String) ≠ "" :=
  ⟨rfl, rfl, rfl, by decide⟩

/-- C8 (amended): for a token `\x7b\x7bwatchlist:NAME|only:EXACT\x7d\x7d`
whose NAME is a known watchlist (and which is the first match candidate in
the text), the substituted value is the OR-join of exactly those terms of
the watchlist whose whitespace-stripped value equals the stripped EXACT
under case-insensitive comparison; when no term matches the filter, the
OR-join of the empty survivor list is the empty string and no error is
raised — the scan continues over the rest of the text. -/
theorem watchlist_only_filter (pre name ex suf : String) (w : Watchlists)
    (terms : List String)
    (hpre : ∀ c ∈ pre.data, c ≠ '\x7b')
    (hname : name.data ≠ [] ∧ ∀ c ∈ name.data, isNameChar c = true)
    (hexs : pyStrip ex ≠ "") (hex : ∀ c ∈ ex.data, c ≠ '\x7d')
    (hfound : w.lookup name = some terms) :
    _expand_watchlist_tokens
        (pre ++ "\x7b\x7bwatchlist:" ++ name ++ "|only:" ++ ex ++ "\x7d\x7d" ++ suf) w
      = Except.map
          (fun r => pre
            ++ _join_or (terms.filter fun t => pyLower (pyStrip t) == pyLower (pyStrip ex)) ++ r)
          (_expand_watchlist_tokens suf w) := by
  have hexne : ex.data ≠ [] := by
    intro hn
    apply hexs
    have hx : ex = "" := by
      cases ex with
      | mk d =>
        simp only at hn
        rw [hn]
    rw [hx]
    rfl
  have hdata : (pre ++ "\x7b\x7bwatchlist:" ++ name ++ "|only:" ++ ex ++ "\x7d\x7d" ++ suf).data
      = pre.data ++ (tokOpen ++ name.data ++ tokOnly ++ ex.data ++ tokClose ++ suf.data) := by
    simp only [String.data_append, tokOpen, tokOnly, tokClose, List.append_assoc]
  have hrepl : watchlistReplacement terms (pyStrip ex)
      = _join_or (terms.filter fun t => pyLower (pyStrip t) == pyLower (pyStrip ex)) := by
    unfold watchlistReplacement
    rw [if_pos (by simpa using hexs)]
    exact join_or_filter_blank _
  unfold _expand_watchlist_tokens
  rw [hdata, expandL_clean_prefix w pre.data _ hpre,
    expandL_found w (matchTokenAt_only name ex suf.data hname.1 hname.2 hexne hex) hfound,
    hrepl]
  cases expandL w suf.data with
  | error e => rfl
  | ok tail =>
    show Except.ok (String.mk (pre.data ++ (_ ++ tail))) = Except.ok (pre ++ _ ++ String.mk tail)
    exact congrArg Except.ok (string_mk_append pre _ tail)

theorem watchlist_only_filter_witness :
    pyStrip "Acme" ≠ ""
  ∧ _expand_watchlist_tokens "\x7b\x7bwatchlist:competitors|only:Acme\x7d\x7d"
      [("competitors", ["Acme", "Beta Corp"])] = Except.ok "Acme" := by
  refine ⟨by decide, ?_⟩
  have h := watchlist_only_filter "" "competitors" "Acme" ""
    [("competitors", ["Acme", "Beta Corp"])] ["Acme", "Beta Corp"]
    (by decide) ⟨by decide, by decide⟩ (by decide) (by decide) rfl
  rw [show ("" ++ "\x7b\x7bwatchlist:" ++ "competitors" ++ "|only:" ++ "Acme" ++ "\x7d\x7d" ++ "")
      = "\x7b\x7bwatchlist:competitors|only:Acme\x7d\x7d" from rfl] at h
  exact h.trans rfl

theorem expandAndList_eq (w : Watchlists) (l : List String) :
    expandAndList w l
      = ((l.map pyStrip).filter fun f => f ≠ "").mapM
          (fun frag => _expand_watchlist_tokens frag w) := by
  induction l with
  | nil => rfl
  | cons x xs ih =>
    simp only [expandAndList, List.map_cons, List.filter_cons]
    by_cases h : pyStrip x = ""
    · simp only [h]
      rw [if_pos (by simp)]
      rw [ih]
      simp
    · rw [if_neg (by simpa using h)]
      rw [if_pos (by simpa using h)]
      rw [List.mapM_cons, ih]
      cases _expand_watchlist_tokens (pyStrip x) w with
      | error e => rfl
      | ok fx =>
        cases hm : ((xs.map pyStrip).filter fun f => f ≠ "").mapM
            (fun frag => _expand_watchlist_tokens frag w) with
        | error e => rfl
        | ok tail => rfl

/-- C2: the Compiled Query equals the AND-join of the clauses gathered in
the claim's fixed order — or-block if the `or` list is non-empty, each
non-blank expanded `and` fragment as its own clause, the global-AND suffix
if configured, the exclusion clause if configured — and an empty gathered
clause list yields the empty string. -/
theorem build_query_clause_order (template : Template) (w : Watchlists)
    (global_and : String) (exclude_domains : List String) :
    _build_query_from_template template w global_and exclude_domains
      = Except.map _join_and (specGatheredClauses template w global_and exclude_domains)
  ∧ (specGatheredClauses template w global_and exclude_domains = Except.ok [] →
      _build_query_from_template template w global_and exclude_domains = Except.ok "") := by
  have hor : or_block_clauses template.orTerms
      = (if template.orTerms = [] then [] else [_join_or template.orTerms]) := by
    unfold or_block_clauses
    by_cases h : template.orTerms = []
    · rw [if_pos h, if_pos (by simp [h])]
    · rw [if_neg h, if_neg (by simpa [List.isEmpty_iff] using h)]
  have hga : global_and_clauses global_and
      = (if global_and = "" then [] else [pyStrip global_and]) := by
    unfold global_and_clauses
    by_cases h : global_and = ""
    · rw [if_pos h, if_pos (by simpa using h)]
    · rw [if_neg h, if_neg (by simpa using h)]
  have hmain : _build_query_from_template template w global_and exclude_domains
      = Except.map _join_and (specGatheredClauses template w global_and exclude_domains) := by
    unfold _build_query_from_template specGatheredClauses
    rw [expandAndList_eq]
    cases ((template.andTerms.map pyStrip).filter fun f => f ≠ "").mapM
        (fun frag => _expand_watchlist_tokens frag w) with
    | error e => rfl
    | ok frags => simp [Except.map, hor, hga]
  refine ⟨hmain, fun h => ?_⟩
  rw [hmain, h]
  rfl

theorem build_query_clause_order_witness :
    specGatheredClauses ⟨[], []⟩ [] "" [] = Except.ok []
  ∧ _build_query_from_template ⟨[], []⟩ [] "" [] = Except.ok "" :=
  ⟨rfl, (build_query_clause_order ⟨[], []⟩ [] "" []).2 rfl⟩

/-- C5: whenever the exclusion-domain list has at least one non-blank entry,
the clause added for it is exactly a minus sign followed by one
parenthesized group containing the OR-join (per `_join_or`) of the
`domain:<d>` tokens built from the non-blank, stripped domains — i.e. the
compiled query is the AND-join of the other clauses with
`-(<OR-join of tokens>)` appended last (for two or more tokens the OR-join
itself contributes the inner pair of parentheses). -/
theorem exclusion_clause_shape (template : Template) (w : Watchlists)
    (global_and : String) (exclude_domains : List String)
    (h : (exclude_domains.filter fun d => pyStrip d != "") ≠ []) :
    _build_query_from_template template w global_and exclude_domains
      = Except.map (fun frags => _join_and (or_block_clauses template.orTerms ++ frags
          ++ global_and_clauses global_and
          ++ ["-(" ++ _join_or ((exclude_domains.filter fun d => pyStrip d != "").map
              (fun d => "domain:" ++ pyStrip d)) ++ ")"]))
        (expandAndList w template.andTerms) := by
  have hdom : exclude_domains ≠ [] := by
    intro hn
    rw [hn] at h
    exact h rfl
  have hex : exclusion_clauses exclude_domains
      = ["-(" ++ _join_or ((exclude_domains.filter fun d => pyStrip d != "").map
          (fun d => "domain:" ++ pyStrip d)) ++ ")"] := by
    unfold exclusion_clauses
    rw [if_neg (by simpa [List.isEmpty_iff] using hdom)]
    rw [if_neg (by simpa [List.isEmpty_iff] using (by simpa [List.map_eq_nil_iff] using h :
      ((exclude_domains.filter fun d => pyStrip d != "").map
        (fun d => "domain:" ++ pyStrip d)) ≠ []))]
  unfold _build_query_from_template
  cases expandAndList w template.andTerms with
  | error e => rfl
  | ok frags => simp [Except.map, hex]

theorem exclusion_clause_shape_witness :
    (["a.com", " ", "b.com"].filter fun d => pyStrip d != "") ≠ []
  ∧ _build_query_from_template ⟨[], []⟩ [] "" ["a.com", " ", "b.com"]
      = Except.ok "-((domain:a.com OR domain:b.com))" := by
  refine ⟨by decide, ?_⟩
  exact (exclusion_clause_shape ⟨[], []⟩ [] "" ["a.com", " ", "b.com"] (by decide)).trans rfl

theorem retryGo_bounds (attempt : Nat → Except String (List Article)) :
    ∀ (ws : List Nat) (n : Nat) (le : Option String),
      n ≤ (retryGo attempt ws n le).attempts
    ∧ (retryGo attempt ws n le).attempts ≤ n + ws.length
    ∧ (retryGo attempt ws n le).waits = ws.take ((retryGo attempt ws n le).attempts - n)
    ∧ (ws ≠ [] → n + 1 ≤ (retryGo attempt ws n le).attempts) := by
  intro ws
  induction ws with
  | nil =>
    intro n le
    refine ⟨le_refl n, by simp [retryGo], by simp [retryGo], fun h => absurd rfl h⟩
  | cons w ws ih =>
    intro n le
    cases h : attempt n with
    | ok items =>
      simp only [retryGo, h]
      exact ⟨by omega, by simp only [List.length_cons]; omega, by simp, fun _ => by omega⟩
    | error e =>
      obtain ⟨h1, h2, h3, _⟩ := ih (n + 1) (some e)
      simp only [retryGo, h]
      refine ⟨by omega, by simp only [List.length_cons]; omega, ?_, fun _ => by omega⟩
      simp only [h3]
      have hc : (retryGo attempt ws (n + 1) (some e)).attempts - n
          = ((retryGo attempt ws (n + 1) (some e)).attempts - (n + 1)) + 1 := by omega
      rw [hc, List.take_succ_cons]

theorem retryGo_success (attempt : Nat → Except String (List Article)) :
    ∀ (k : Nat) (ws : List Nat) (n : Nat) (le : Option String) (v : List Article),
      k < ws.length → (∀ i, i < k → ∃ e, attempt (n + i) = Except.error e) →
      attempt (n + k) = Except.ok v →
      retryGo attempt ws n le = ⟨Except.ok v, n + k + 1, ws.take (k + 1)⟩ := by
  intro k
  induction k with
  | zero =>
    intro ws n le v hk _ hok
    match ws with
    | w :: ws' =>
      simp only [retryGo]
      rw [show n + 0 = n from rfl] at hok
      rw [hok]
      simp [List.take_succ_cons]
  | succ k ih =>
    intro ws n le v hk hfail hok
    match ws with
    | w :: ws' =>
      obtain ⟨e0, he0⟩ := hfail 0 (Nat.succ_pos k)
      rw [show n + 0 = n from rfl] at he0
      simp only [retryGo, he0]
      have hrec := ih ws' (n + 1) (some e0) v (by simpa using hk)
        (fun i hi => by
          obtain ⟨e, he⟩ := hfail (i + 1) (by omega)
          exact ⟨e, by rwa [show n + (i + 1) = n + 1 + i by omega] at he⟩)
        (by rwa [show n + (k + 1) = n + 1 + k by omega] at hok)
      rw [hrec]
      simp only [List.take_succ_cons]
      refine congrArg (fun x => RetryRun.mk (Except.ok v) x _) ?_
      omega

theorem retryGo_exhaust (attempt : Nat → Except String (List Article)) :
    ∀ (ws : List Nat) (n : Nat) (le : Option String) (e : String),
      (∀ i, i < ws.length → ∃ ei, attempt (n + i) = Except.error ei) →
      (ws ≠ [] → attempt (n + ws.length - 1) = Except.error e) →
      (ws = [] → le = some e) →
      retryGo attempt ws n le = ⟨Except.error e, n + ws.length, ws⟩ := by
  intro ws
  induction ws with
  | nil =>
    intro n le e _ _ hnil
    rw [hnil rfl]
    simp [retryGo]
  | cons w ws' ih =>
    intro n le e hfail hlast _
    obtain ⟨e0, he0⟩ := hfail 0 (Nat.succ_pos _)
    rw [show n + 0 = n from rfl] at he0
    simp only [retryGo, he0]
    by_cases hws : ws' = []
    · subst hws
      have : attempt n = Except.error e := by
        have := hlast (by simp)
        simpa using this
      rw [he0] at this
      cases this
      simp [retryGo]
    · have hrec := ih (n + 1) (some e0) e
        (fun i hi => by
          obtain ⟨ei, hei⟩ := hfail (i + 1) (by simp only [List.length_cons]; omega)
          exact ⟨ei, by rwa [show n + (i + 1) = n + 1 + i by omega] at hei⟩)
        (fun _ => by
          have := hlast (by simp)
          rwa [show n + (w :: ws').length - 1 = n + 1 + ws'.length - 1 by
            simp only [List.length_cons]; omega] at this)
        (fun h => absurd h hws)
      rw [hrec]
      simp only [List.length_cons]
      refine congrArg (fun x => RetryRun.mk (Except.error e) x _) ?_
      omega

/-- C3: the retry controller makes at least one and at most
`backoffs.length` attempts; the waits performed are exactly the prefix of
the fixed backoff sequence `[0, 5, 5, 10, 15]` covering the attempts made
(so the first attempt's pre-wait is the leading 0, i.e. no wait); every
failure — transient or fatal alike — consumes one slot and leads to the
next attempt, so if the first `k` attempts fail and attempt `k` (within the
budget) succeeds, its items are returned with no error after exactly `k + 1`
attempts; and when all attempts in the budget fail, the last observed error
is re-raised. -/
theorem gdelt_retry_spec (attempt : Nat → Except String (List Article)) :
    1 ≤ (_gdelt_search attempt).attempts
  ∧ (_gdelt_search attempt).attempts ≤ backoffs.length
  ∧ (_gdelt_search attempt).waits = backoffs.take (_gdelt_search attempt).attempts
  ∧ backoffs.head? = some 0
  ∧ (∀ k v, k < backoffs.length → (∀ i, i < k → ∃ e, attempt i = Except.error e) →
      attempt k = Except.ok v →
      (_gdelt_search attempt).result = Except.ok v ∧ (_gdelt_search attempt).attempts = k + 1)
  ∧ (∀ e, (∀ i, i < backoffs.length → ∃ ei, attempt i = Except.error ei) →
      attempt (backoffs.length - 1) = Except.error e →
      (_gdelt_search attempt).result = Except.error e
        ∧ (_gdelt_search attempt).attempts = backoffs.length) := by
  obtain ⟨hb1, hb2, hb3, hb4⟩ := retryGo_bounds attempt backoffs 0 none
  refine ⟨hb4 (by decide), hb2, by simpa using hb3, rfl, ?_, ?_⟩
  · intro k v hk hfail hok
    have h := retryGo_success attempt k backoffs 0 none v hk
      (fun i hi => by simpa using hfail i hi) (by simpa using hok)
    unfold _gdelt_search
    rw [h]
    refine ⟨rfl, ?_⟩
    show 0 + k + 1 = k + 1
    omega
  · intro e hfail hlast
    have h := retryGo_exhaust attempt backoffs 0 none e
      (fun i hi => by simpa using hfail i hi)
      (fun _ => by simpa using hlast)
      (fun hc => absurd hc (by decide))
    unfold _gdelt_search
    rw [h]
    exact ⟨rfl, rfl⟩

theorem gdelt_retry_spec_witness :
    (2 < backoffs.length)
  ∧ (∀ i, i < 2 → ∃ e, (fun j => if j < 2 then (Except.error "GDELT HTTP 503" :
        Except String (List Article)) else Except.ok []) i = Except.error e)
  ∧ (_gdelt_search (fun j => if j < 2 then Except.error "GDELT HTTP 503"
        else Except.ok [])).result = Except.ok []
  ∧ (_gdelt_search (fun j => if j < 2 then Except.error "GDELT HTTP 503"
        else Except.ok [])).attempts = 3 := by
  refine ⟨by decide, fun i hi => ⟨"GDELT HTTP 503", by
    interval_cases i <;> rfl⟩, ?_⟩
  have h := (gdelt_retry_spec (fun j => if j < 2 then Except.error "GDELT HTTP 503"
      else Except.ok [])).2.2.2.2.1 2 [] (by decide)
    (fun i hi => ⟨"GDELT HTTP 503", by interval_cases i <;> rfl⟩) rfl
  exact h

theorem enforce_sets_last (gap : ℚ) (s : RateState) :
    (_enforce_gdelt_spacing gap s).last = (_enforce_gdelt_spacing gap s).now := rfl

theorem enforce_now_ge (gap : ℚ) (s : RateState) :
    s.now ≤ (_enforce_gdelt_spacing gap s).now
  ∧ s.last + gap ≤ (_enforce_gdelt_spacing gap s).now := by
  by_cases h : 0 < s.last + gap - s.now
  · simp only [_enforce_gdelt_spacing, if_pos h]
    constructor <;> linarith
  · simp only [_enforce_gdelt_spacing, if_neg h]
    exact ⟨le_refl _, by linarith [not_lt.mp h]⟩

theorem runFetchTimes_chain (gap : ℚ) :
    ∀ (ds : List ℚ) (s : RateState), s.last = s.now →
      List.Chain (fun a b => a + gap ≤ b) s.now (runFetchTimes gap s ds) := by
  intro ds
  induction ds with
  | nil => intro s _; exact List.Chain.nil
  | cons d ds ih =>
    intro s hls
    simp only [runFetchTimes]
    refine List.Chain.cons ?_ ?_
    · have h := (enforce_now_ge gap (RateState.mk (s.now + d) s.last)).2
      simpa [hls] using h
    · exact ih _ (enforce_sets_last gap _)

/-- C4: the spacing guard updates the process-wide last-call timestamp to
the moment it returns, never returns before `last + gap`, and across any run
of consecutive fetch calls — whatever time elapses in between (retries of
one topic, later topics, anything) — each outbound request time is at least
`gap` after the previous one. This holds for every gap, in particular the
configured `gdeltMinGap`. -/
theorem rate_limiter_spacing (gap : ℚ) (s : RateState) (ds : List ℚ) :
    ((_enforce_gdelt_spacing gap s).last = (_enforce_gdelt_spacing gap s).now)
  ∧ (s.now ≤ (_enforce_gdelt_spacing gap s).now
      ∧ s.last + gap ≤ (_enforce_gdelt_spacing gap s).now)
  ∧ List.Chain' (fun a b => a + gap ≤ b) (runFetchTimes gap s ds) := by
  refine ⟨enforce_sets_last gap s, enforce_now_ge gap s, ?_⟩
  cases ds with
  | nil => exact trivial
  | cons d ds =>
    show List.Chain _ _ (runFetchTimes gap _ ds)
    exact runFetchTimes_chain gap ds _ (enforce_sets_last gap _)

theorem buildGo_eq_map (wl : Watchlists) (ga : String) (excl : List String) (fetch : Fetch)
    (defCount baseLookback : Nat) (ts : List NewsTopic) :
    buildGo wl ga excl fetch defCount baseLookback ts
      = ts.map fun t => (processTopic wl ga excl fetch defCount baseLookback t).1 := by
  induction ts with
  | nil => rfl
  | cons t ts ih => simp only [buildGo, ih, List.map_cons]

/-- C1: the Section Assembler's output is exactly the map of the per-topic
processor over the configured topics — one Section per Topic Definition, in
configuration order, so no topic's failure removes, reorders or aborts the
Sections of later topics; a topic whose resolved query is blank (and one
whose resolution itself raised) yields an error Section with no fetch call
performed; a topic whose fetch raises yields an error Section, which always
carries empty items and the raised message. -/
theorem section_assembler_spec (cfg : NewsConfig) (fetch : Fetch) :
    build_news_sections cfg fetch
      = cfg.sections.map (fun t => (processTopic cfg.watchlists (pyStrip cfg.global_and)
          cfg.exclude_domains fetch (cfg.default_count.getD 10)
          (cfg.lookback_hours.getD 24) t).1)
  ∧ (build_news_sections cfg fetch).length = cfg.sections.length
  ∧ (∀ (wl : Watchlists) (ga : String) (excl : List String) (defCount baseLookback : Nat)
        (t : NewsTopic) (q : String),
      resolveTopicQuery wl ga excl t = Except.ok q → pyStrip q = "" →
      processTopic wl ga excl fetch defCount baseLookback t
        = (errorSection t.name (t.countOpt.getD defCount) (t.lookbackOpt.getD baseLookback)
            ("Empty query generated for section '" ++ t.name ++ "'"), []))
  ∧ (∀ (wl : Watchlists) (ga : String) (excl : List String) (defCount baseLookback : Nat)
        (t : NewsTopic) (e : String),
      resolveTopicQuery wl ga excl t = Except.error e →
      processTopic wl ga excl fetch defCount baseLookback t
        = (errorSection t.name (t.countOpt.getD defCount)
            (t.lookbackOpt.getD baseLookback) e, []))
  ∧ (∀ (wl : Watchlists) (ga : String) (excl : List String) (defCount baseLookback : Nat)
        (t : NewsTopic) (q e : String),
      resolveTopicQuery wl ga excl t = Except.ok q → pyStrip q ≠ "" →
      fetch q (t.lookbackOpt.getD baseLookback) (t.countOpt.getD defCount) = Except.error e →
      processTopic wl ga excl fetch defCount baseLookback t
        = (errorSection t.name (t.countOpt.getD defCount) (t.lookbackOpt.getD baseLookback) e,
            [(q, t.lookbackOpt.getD baseLookback, t.countOpt.getD defCount)]))
  ∧ (∀ (name : String) (count lookback : Nat) (msg : String),
      (errorSection name count lookback msg).data.items = []
        ∧ (errorSection name count lookback msg).data.error = some msg) := by
  have hmap := buildGo_eq_map cfg.watchlists (pyStrip cfg.global_and) cfg.exclude_domains
    fetch (cfg.default_count.getD 10) (cfg.lookback_hours.getD 24) cfg.sections
  refine ⟨hmap, by rw [show build_news_sections cfg fetch = _ from hmap]; simp, ?_, ?_, ?_,
    fun name count lookback msg => ⟨rfl, rfl⟩⟩
  · intro wl ga excl defCount baseLookback t q hq hblank
    simp only [processTopic, hq]
    rw [if_pos (by simpa using hblank)]
  · intro wl ga excl defCount baseLookback t e he
    simp only [processTopic, he]
  · intro wl ga excl defCount baseLookback t q e hq hnb hf
    simp only [processTopic, hq]
    rw [if_neg (by simpa using hnb)]
    simp only [hf]

theorem section_assembler_spec_witness :
    resolveTopicQuery [] "" [] ⟨"Top", "gdelt", " ", ⟨[], []⟩, none, none⟩ = Except.ok " "
  ∧ pyStrip " " = ""
  ∧ processTopic [] "" [] (fun _ _ _ => Except.error "no fetch expected") 10 24
      ⟨"Top", "gdelt", " ", ⟨[], []⟩, none, none⟩
      = (errorSection "Top" 10 24 "Empty query generated for section 'Top'", []) := by
  refine ⟨rfl, rfl, ?_⟩
  exact (section_assembler_spec ⟨"", [], none, none, [], []⟩
    (fun _ _ _ => Except.error "no fetch expected")).2.2.1 [] "" [] 10 24
    ⟨"Top", "gdelt", " ", ⟨[], []⟩, none, none⟩ " " rfl rfl

/-- C10: when a topic's fetch raises after a non-empty Compiled Query had
been built, the emitted error Section's payload carries the empty string as
its `query` (the built query is discarded) together with the error message;
a success Section's payload carries the actual compiled query and the
fetched items, with no error. -/
theorem section_query_field (wl : Watchlists) (ga : String) (excl : List String)
    (fetch : Fetch) (defCount baseLookback : Nat) (t : NewsTopic) (q : String) :
    (∀ e : String, resolveTopicQuery wl ga excl t = Except.ok q → pyStrip q ≠ "" →
      fetch q (t.lookbackOpt.getD baseLookback) (t.countOpt.getD defCount) = Except.error e →
      (processTopic wl ga excl fetch defCount baseLookback t).1.data.query = ""
        ∧ (processTopic wl ga excl fetch defCount baseLookback t).1.data.error = some e)
  ∧ (∀ items : List Article, resolveTopicQuery wl ga excl t = Except.ok q → pyStrip q ≠ "" →
      fetch q (t.lookbackOpt.getD baseLookback) (t.countOpt.getD defCount) = Except.ok items →
      (processTopic wl ga excl fetch defCount baseLookback t).1.data.query = q
        ∧ (processTopic wl ga excl fetch defCount baseLookback t).1.data.error = none
        ∧ (processTopic wl ga excl fetch defCount baseLookback t).1.data.items = items) := by
  constructor
  · intro e hq hnb hf
    simp only [processTopic, hq]
    rw [if_neg (by simpa using hnb)]
    simp only [hf]
    exact ⟨rfl, rfl⟩
  · intro items hq hnb hf
    simp only [processTopic, hq]
    rw [if_neg (by simpa using hnb)]
    simp only [hf]
    exact ⟨rfl, rfl, rfl⟩

theorem section_query_field_witness :
    resolveTopicQuery [] "" [] ⟨"T", "gdelt", "alpha", ⟨[], []⟩, none, none⟩ = Except.ok "alpha"
  ∧ pyStrip "alpha" ≠ ""
  ∧ (fun q _ _ => if q = "alpha" then (Except.error "GDELT HTTP 500" :
        Except String (List Article)) else Except.ok []) "alpha" 24 10 = Except.error "GDELT HTTP 500"
  ∧ (processTopic [] "" [] (fun q _ _ => if q = "alpha" then Except.error "GDELT HTTP 500"
        else Except.ok []) 10 24
      ⟨"T", "gdelt", "alpha", ⟨[], []⟩, none, none⟩).1.data.query = ""
  ∧ (processTopic [] "" [] (fun q _ _ => if q = "alpha" then Except.error "GDELT HTTP 500"
        else Except.ok []) 10 24
      ⟨"T", "gdelt", "alpha", ⟨[], []⟩, none, none⟩).1.data.error = some "GDELT HTTP 500" := by
  refine ⟨rfl, by decide, rfl, ?_⟩
  exact (section_query_field [] "" [] (fun q _ _ => if q = "alpha" then
      Except.error "GDELT HTTP 500" else Except.ok []) 10 24
    ⟨"T", "gdelt", "alpha", ⟨[], []⟩, none, none⟩ "alpha").1 "GDELT HTTP 500" rfl (by decide) rfl

end DailyDigest
